import Mathlib

/-!
Verification of the process-orchestration core of the `electrsd` crate
(`src/lib.rs`, `src/ext.rs`) via a shallow embedding.

The embedding models `ElectrsD::with_conf` (launch with bounded retry),
the readiness polling loop, the shutdown protocol (`kill`, `inner_kill`,
`Drop`), and the two convenience waiters `wait_height` and `wait_tx`.
External effects (upstream RPC results, temp-directory creation, the OS
port allocator, process spawn and exit observations, client connection
attempts) are supplied by an explicit `World` oracle, and the functions
additionally return the list of externally visible events they perform,
so that ordering and frame properties can be stated.

Machine-level caveats: `ExitStatus` is modelled as `Nat`; RPC error
payloads are opaque `Nat` codes; the fallibility of `Child::try_wait`
(an `io::Error` distinct from "observed exit") is modelled by the
`Except Unit` layer of `AttemptEnv.tryWait`.
-/

set_option autoImplicit false

deriving instance DecidableEq for Except

namespace Electrsd

/-- Opaque upstream / client RPC error payload. -/
abbrev RpcErr := Nat

/-- Result of `response.get("initialblockdownload").and_then(|v| v.as_bool())`
on the `getblockchaininfo` answer: `none` when the field is missing or not a
boolean, `some b` otherwise. -/
structure ChainInfo where
  initialblockdownload : Option Bool
deriving DecidableEq

/-- The fields of `tapyrusd.params` read by `with_conf`: cookie file path,
RPC socket address and optional p2p socket address (all as display strings). -/
structure Params where
  cookieFile : String
  rpcSocket : String
  p2pSocket : Option String
deriving DecidableEq

/-- Compile-time cargo feature selection (`legacy`, `electrs_0_5_0`,
`electrs_0_5_1`) that drives the `cfg!` branches of `with_conf`. -/
structure Features where
  legacy : Bool
  electrs050 : Bool
  electrs051 : Bool
deriving DecidableEq

/-- The `Conf` struct of `lib.rs` (paths as strings). -/
structure Conf where
  args : List String
  viewStderr : Bool
  httpEnabled : Bool
  network : String
  tmpdir : Option String
  staticdir : Option String
  attempts : Nat
deriving DecidableEq

/-- The `Default` impl for `Conf`: `-vvv` is passed when one of the electrs
version features is enabled, `network` is `"dev"`, both directory options are
unset and `attempts` is 3. -/
def Conf.default (F : Features) : Conf :=
  { args := if F.electrs051 || F.electrs050 || F.legacy then ["-vvv"] else []
    viewStderr := false
    httpEnabled := false
    network := "dev"
    tmpdir := none
    staticdir := none
    attempts := 3 }

/-- The `DataDir` enum of `lib.rs`: a persistent caller-owned path or a
harness-owned temporary directory (represented by its path). -/
inductive DirKind
  | persistent (path : String)
  | temporary (path : String)
deriving DecidableEq

/-- `DataDir::path`. -/
def DirKind.path : DirKind → String
  | .persistent p => p
  | .temporary p => p

/-- Environment of one launch invocation: outcomes of the external calls the
invocation performs, plus per-iteration observations of the readiness loop.
`tryWait i` is the result of `process.try_wait()` at loop iteration `i`
(`Except.error` = an io error from `try_wait` itself, `some st` = the child
was observed exited with status `st`); `connOk i` tells whether
`RawClient::new` succeeds at iteration `i`. -/
structure AttemptEnv where
  chainInfo : Except RpcErr ChainInfo
  newAddr : Except RpcErr String
  gen : Except RpcErr Unit
  tempDir : Except Unit String
  createDirOk : Bool
  spawnOk : Bool
  tryWait : Nat → Except Unit (Option Nat)
  connOk : Nat → Bool

/-- The full external world: `env a` is the environment seen by the launch
invocation whose `conf.attempts` equals `a` (retries decrement this index),
`ports` is the OS ephemeral-port allocator stream (indexed by a global
allocation counter; `none` = `get_available_port` fails), `tempdirRootVar`
is the `TEMPDIR_ROOT` environment variable, and `cookieContents` is the
result of reading the cookie file (used only by the `legacy` feature). -/
structure World where
  env : Nat → AttemptEnv
  ports : Nat → Option Nat
  tempdirRootVar : Option String
  cookieContents : Except Unit String

/-- Externally visible events performed by a launch, in order. -/
inductive Event
  | queryChainInfo
  | newAddress
  | mine (blocks : Nat)
  | resolveDir
  | allocPort (port : Nat)
  | spawn (args : List String)
  | connectAttempt (ok : Bool)
  | sleepMs (ms : Nat)
deriving DecidableEq

/-- Whether an event is a process spawn. -/
def Event.isSpawnEv : Event → Bool
  | .spawn _ => true
  | _ => false

/-- Whether an event consumes an ephemeral port. -/
def Event.isPortEv : Event → Bool
  | .allocPort _ => true
  | _ => false

/-- Whether an event is a state-changing call against the upstream node
(wallet address creation or block generation). -/
def Event.isStateChange : Event → Bool
  | .newAddress => true
  | .mine _ => true
  | _ => false

/-- The errors of `error.rs` reachable from the launch path, collapsed to
the granularity the claims need (`io` covers filesystem, spawn and
port-allocation failures which `with_conf` propagates with `?`). -/
inductive LaunchErr
  | rpc (e : RpcErr)
  | io
  | bothDirsSpecified
  | earlyExit (status : Nat)
deriving DecidableEq

/-- Result of one pipeline stage: success, a propagated typed error, or a
Rust panic (`unwrap` / `expect`). -/
inductive StepRes (α : Type)
  | ok (a : α)
  | err (e : LaunchErr)
  | panicked
deriving DecidableEq

/-- The fields of the returned `ElectrsD` handle that the claims are about
(the process and client handles are left to the event trace). -/
structure Handle where
  workDir : DirKind
  electrumUrl : String
  esploraUrl : Option String
deriving DecidableEq

/-- Overall outcome of a launch. `stillPolling` marks a run whose readiness
loop has not terminated within the model's fuel (the real loop is unbounded). -/
inductive RunOutcome
  | ok (h : Handle)
  | err (e : LaunchErr)
  | panicked
  | stillPolling
deriving DecidableEq

/-- Whether a launch outcome is a success. -/
def RunOutcome.isOk : RunOutcome → Bool
  | .ok _ => true
  | _ => false

/-- Lines 154-170 of `lib.rs`: query `getblockchaininfo`; when the response
reports `initialblockdownload` (defaulting to `false` when the field is
missing or non-boolean), request a new upstream address and mine exactly one
block to it. The `generatetoaddress` call is `.unwrap()`ed, so its failure
is a panic, while `getblockchaininfo` and `getnewaddress` failures propagate
with `?`. -/
def nudgeStep (E : AttemptEnv) : StepRes Unit × List Event :=
  match E.chainInfo with
  | .error e => (.err (.rpc e), [.queryChainInfo])
  | .ok info =>
    if info.initialblockdownload.getD false then
      match E.newAddr with
      | .error e => (.err (.rpc e), [.queryChainInfo, .newAddress])
      | .ok _ =>
        match E.gen with
        | .error _ => (.panicked, [.queryChainInfo, .newAddress, .mine 1])
        | .ok _ => (.ok (), [.queryChainInfo, .newAddress, .mine 1])
    else (.ok (), [.queryChainInfo])

/-- Whether the upstream daemon reports initial block download (the guard of
the nudge branch). -/
def reportsIBD (E : AttemptEnv) : Bool :=
  match E.chainInfo with
  | .ok info => info.initialblockdownload.getD false
  | .error _ => false

/-- Lines 174-185 of `lib.rs`: work-directory resolution. Both options set
is the `BothDirsSpecified` error; a set `tmpdir` creates a temp dir under
it; a set `staticdir` runs `create_dir_all` and is kept persistent; neither
set creates a temp dir under `TEMPDIR_ROOT` when that variable is set, and
under the OS default otherwise. -/
def resolveDir (W : World) (E : AttemptEnv) (conf : Conf) : Except LaunchErr DirKind :=
  match conf.tmpdir, conf.staticdir with
  | some _, some _ => .error .bothDirsSpecified
  | some _, none =>
    match E.tempDir with
    | .ok d => .ok (.temporary d)
    | .error _ => .error .io
  | none, some w =>
    if E.createDirOk then .ok (.persistent w) else .error .io
  | none, none =>
    match W.tempdirRootVar with
    | some _ =>
      match E.tempDir with
      | .ok d => .ok (.temporary d)
      | .error _ => .error .io
    | none =>
      match E.tempDir with
      | .ok d => .ok (.temporary d)
      | .error _ => .error .io

/-- Lines 194-213 of `lib.rs`: the credential reference. Without the
`legacy` feature the cookie file path is passed by reference
(`--cookie-file`); with it the cookie file is read and its contents inlined
(`--cookie`), the read failing with an io error. -/
def cookieStep (W : World) (F : Features) (params : Params) : Except LaunchErr (List String) :=
  if F.legacy then
    match W.cookieContents with
    | .ok v => .ok ["--cookie", v]
    | .error _ => .error .io
  else .ok ["--cookie-file", params.cookieFile]

/-- The guard of lines 220-223 of `lib.rs`: json-rpc import mode is used
when any of the `electrs_0_5_0`, `electrs_0_5_1` or `legacy` features is on. -/
def importMode (F : Features) : Bool :=
  F.electrs050 || F.electrs051 || F.legacy

/-- Lines 219-233 of `lib.rs`: either the `--jsonrpc-import` flag, or the
upstream p2p address, whose absence is an `expect` panic. -/
def daemonStep (F : Features) (params : Params) : StepRes (List String) :=
  if importMode F then .ok ["--jsonrpc-import"]
  else
    match params.p2pSocket with
    | some s => .ok ["--daemon-p2p-addr", s]
    | none => .panicked

/-- Lines 172-253 of `lib.rs`: build the child's argument list on top of the
caller's extra arguments, threading the port-allocation counter `p`. Returns
the argument list, the electrum URL and the optional esplora URL, together
with the port-allocation events and the advanced counter. -/
def buildArgs (W : World) (F : Features) (params : Params) (conf : Conf)
    (dirPath : String) (p : Nat) :
    StepRes (List String × String × Option String) × List Event × Nat :=
  match cookieStep W F params with
  | .error e => (.err e, [], p)
  | .ok cargs =>
    match daemonStep F params with
    | .panicked => (.panicked, [], p)
    | .err e => (.err e, [], p)
    | .ok dargs =>
      match W.ports p with
      | none => (.err .io, [], p)
      | some ev =>
        let eUrl := "0.0.0.0:" ++ toString ev
        match W.ports (p + 1) with
        | none => (.err .io, [.allocPort ev], p + 1)
        | some mv =>
          let mUrl := "0.0.0.0:" ++ toString mv
          let base := conf.args
            ++ ["--db-dir", dirPath, "--network", conf.network]
            ++ cargs
            ++ ["--daemon-rpc-addr", params.rpcSocket]
            ++ dargs
            ++ ["--electrum-rpc-addr", eUrl, "--monitoring-addr", mUrl]
          if conf.httpEnabled then
            match W.ports (p + 2) with
            | none => (.err .io, [.allocPort ev, .allocPort mv], p + 2)
            | some hv =>
              let hUrl := "0.0.0.0:" ++ toString hv
              (.ok (base ++ ["--http-addr", hUrl], eUrl, some hUrl),
                [.allocPort ev, .allocPort mv, .allocPort hv], p + 3)
          else
            (.ok (base, eUrl, none), [.allocPort ev, .allocPort mv], p + 2)

/-- Result of the readiness loop (lines 268-285 of `lib.rs`): a connected
client, an observed early exit with its status, a propagated `try_wait` io
error, or still polling when the model's fuel runs out (the real loop has no
bound of its own). -/
inductive LoopRes
  | client
  | exited (status : Nat)
  | ioErr
  | stillPolling
deriving DecidableEq

/-- Lines 268-285 of `lib.rs`: each iteration first checks
`process.try_wait()?` (propagating its io error, and stopping with the exit
status when the child has exited), then attempts `RawClient::new`; a
successful connection breaks out with the client, a failed one sleeps 500ms
and retries. `fuel` bounds the model's unrolling only. -/
def readyLoop (E : AttemptEnv) : Nat → Nat → LoopRes × List Event
  | 0, _ => (.stillPolling, [])
  | fuel + 1, i =>
    match E.tryWait i with
    | .error _ => (.ioErr, [])
    | .ok (some st) => (.exited st, [])
    | .ok none =>
      if E.connOk i then (.client, [.connectAttempt true])
      else
        let r := readyLoop E fuel (i + 1)
        (r.1, .connectAttempt false :: .sleepMs 500 :: r.2)

/-- Result of one launch attempt: either a final outcome, or an observed
early exit whose retry-or-fail decision belongs to the caller. -/
inductive AttemptRes
  | done (r : RunOutcome)
  | earlyExit (status : Nat)
deriving DecidableEq

/-- One pass through the body of `with_conf` for the invocation whose
`conf.attempts` value is `a`: nudge upstream, resolve the work directory,
build the arguments (allocating ports from counter `p`), spawn, and run the
readiness loop. -/
def attemptOnce (W : World) (F : Features) (params : Params) (fuel : Nat)
    (a : Nat) (conf : Conf) (p : Nat) : AttemptRes × List Event × Nat :=
  match nudgeStep (W.env a) with
  | (.err e, evs) => (.done (.err e), evs, p)
  | (.panicked, evs) => (.done .panicked, evs, p)
  | (.ok _, evs) =>
    match resolveDir W (W.env a) conf with
    | .error e => (.done (.err e), evs, p)
    | .ok dir =>
      match buildArgs W F params conf dir.path p with
      | (.err e, evs2, p2) => (.done (.err e), evs ++ [.resolveDir] ++ evs2, p2)
      | (.panicked, evs2, p2) => (.done .panicked, evs ++ [.resolveDir] ++ evs2, p2)
      | (.ok (args, eUrl, esp), evs2, p2) =>
        if (W.env a).spawnOk then
          match readyLoop (W.env a) fuel 0 with
          | (.client, levs) =>
            (.done (.ok ⟨dir, eUrl, esp⟩),
              evs ++ [.resolveDir] ++ evs2 ++ [.spawn args] ++ levs, p2)
          | (.exited st, levs) =>
            (.earlyExit st, evs ++ [.resolveDir] ++ evs2 ++ [.spawn args] ++ levs, p2)
          | (.ioErr, levs) =>
            (.done (.err .io), evs ++ [.resolveDir] ++ evs2 ++ [.spawn args] ++ levs, p2)
          | (.stillPolling, levs) =>
            (.done .stillPolling, evs ++ [.resolveDir] ++ evs2 ++ [.spawn args] ++ levs, p2)
        else (.done (.err .io), evs ++ [.resolveDir] ++ evs2, p2)

/-- The retry structure of `with_conf` (lines 268-280 of `lib.rs`): on an
observed early exit, when the attempts budget is positive the whole launch
is re-entered with the budget decremented (fresh directory, fresh ports from
the advanced counter); when it is zero the launch fails with
`EarlyExit(status)`. Structural recursion on the budget. -/
def withConfA (W : World) (F : Features) (params : Params) (fuel : Nat) :
    Nat → Conf → Nat → RunOutcome × List Event × Nat
  | a, conf, p =>
    match attemptOnce W F params fuel a conf p with
    | (.done r, evs, p2) => (r, evs, p2)
    | (.earlyExit st, evs, p2) =>
      match a with
      | 0 => (.err (.earlyExit st), evs, p2)
      | b + 1 =>
        let r := withConfA W F params fuel b conf p2
        (r.1, evs ++ r.2.1, r.2.2)

/-- `ElectrsD::with_conf`: run the launch with the budget taken from the
configuration. -/
def withConf (W : World) (F : Features) (params : Params) (fuel : Nat)
    (conf : Conf) (p : Nat) : RunOutcome × List Event × Nat :=
  withConfA W F params fuel conf.attempts conf p

/-! ### Shutdown (`kill`, `inner_kill`, `Drop`), non-windows cfg -/

/-- OS-level lifecycle state of the child process: running, exited but not
yet reaped (zombie), or reaped by a previous `wait`. -/
inductive ProcState
  | running
  | zombie
  | reaped
deriving DecidableEq

/-- Actions the shutdown path can perform: the cooperative `SIGINT` sent by
`inner_kill` via `nix`, the blocking `Child::wait`, and the forced
`Child::kill` (SIGKILL). -/
inductive KAction
  | sigint
  | waitChild
  | forceKill
deriving DecidableEq

/-- Shutdown error payloads: `nix` ESRCH when the signalled pid no longer
exists (the process was reaped), and the `InvalidInput` io error
`Child::kill` returns for an already-reaped child. -/
inductive KillErr
  | esrch
  | invalidInput
deriving DecidableEq

/-- Outcome of a `kill` call: its returned result, the process state
afterwards, the actions performed in order, and whether the call blocked
waiting for a still-running process to exit. -/
structure KillOut where
  res : Except KillErr Unit
  state : ProcState
  actions : List KAction
  blocked : Bool
deriving DecidableEq

/-- Semantics of `nix::sys::signal::kill(pid, SIGINT)` (`inner_kill`,
lines 330-337 of `lib.rs`): delivery succeeds while the pid exists (running
or zombie) and fails with ESRCH once the process has been reaped. -/
def sigintTo : ProcState → Except KillErr Unit
  | .reaped => .error .esrch
  | _ => .ok ()

/-- Semantics of `std::process::Child::wait`: reaps a running or zombie
child (blocking in the running case until the OS reports the exit); on an
already-reaped child it returns the cached exit status immediately.
Returns (result, new state, blocked-while-running). -/
def childWait : ProcState → Except KillErr Unit × ProcState × Bool
  | .running => (.ok (), .reaped, true)
  | .zombie => (.ok (), .reaped, false)
  | .reaped => (.ok (), .reaped, false)

/-- Semantics of `std::process::Child::kill`: an `InvalidInput` error once
the child has been reaped, otherwise a SIGKILL that leaves the child exited
(zombie, it is not reaped here) without waiting. -/
def childKill : ProcState → Except KillErr Unit × ProcState
  | .reaped => (.error .invalidInput, .reaped)
  | _ => (.ok (), .zombie)

/-- `ElectrsD::kill` (lines 316-328 of `lib.rs`): a Persistent work
directory gets `inner_kill` (SIGINT) and then, when delivery succeeded, a
blocking `Child::wait`; a Temporary work directory gets an immediate
`Child::kill` with no wait. -/
def kill (d : DirKind) (s : ProcState) : KillOut :=
  match d with
  | .persistent _ =>
    match sigintTo s with
    | .error e => ⟨.error e, s, [.sigint], false⟩
    | .ok _ =>
      let w := childWait s
      ⟨w.1, w.2.1, [.sigint, .waitChild], w.2.2⟩
  | .temporary _ =>
    let k := childKill s
    ⟨k.1, k.2, [.forceKill], false⟩

/-- The `Drop` impl (lines 345-349 of `lib.rs`): run `kill` and discard its
result (`let _ = self.kill();`), so disposal always attempts termination and
never turns a termination error into a failure. -/
def dropHandle (d : DirKind) (s : ProcState) : Unit × KillOut :=
  ((), kill d s)

/-! ### Convenience waiters (`ext.rs`) -/

/-- View of a fetched transaction: its recomputed id (`tx.txid()`) and the
`script_pubkey` of each output (scripts as opaque `Nat`s). -/
structure TxView where
  txid : Nat
  outputs : List Nat
deriving DecidableEq

/-- Per-iteration client observations for `wait_tx`: the result of
`transaction_get` (`none` = error) and of `script_get_history` per script
(`none` = error, which the code `.unwrap()`s). -/
structure TxIterEnv where
  txGet : Option TxView
  hist : Nat → Option (List Nat)

/-- Result of `wait_tx`: returned after verifying indexing, returned by
falling off the 600-iteration budget, or a Rust panic from the `unwrap` on
`script_get_history`. -/
inductive WaitTxRes
  | success
  | gaveUp
  | panicked
deriving DecidableEq

/-- `ElectrsD::wait_tx` (lines 23-49 of `ext.rs`): up to 600 iterations; a
failed `transaction_get` sleeps 100ms and retries; a fetched transaction
with no outputs returns at once; otherwise the history of the FIRST output's
script is fetched (`unwrap`) and scanned for the transaction's id, returning
on a hit and otherwise continuing the loop without sleeping. -/
def waitTx (env : Nat → TxIterEnv) : Nat → Nat → WaitTxRes
  | 0, _ => .gaveUp
  | fuel + 1, i =>
    match (env i).txGet with
    | none => waitTx env fuel (i + 1)
    | some tx =>
      match tx.outputs with
      | [] => .success
      | s :: _ =>
        match (env i).hist s with
        | none => .panicked
        | some h => if tx.txid ∈ h then .success else waitTx env fuel (i + 1)

/-- `ElectrsD::wait_height` (lines 13-20 of `ext.rs`): up to 600 calls to
`block_header_raw(height)`; break on the first success, sleep 100ms on each
failure. `ok i` is whether the call at iteration `i` succeeds; the result is
(number of calls made, whether the loop broke on a success). -/
def waitHeight (ok : Nat → Bool) : Nat → Nat → Nat × Bool
  | 0, _ => (0, false)
  | fuel + 1, i =>
    if ok i then (1, true)
    else
      let r := waitHeight ok fuel (i + 1)
      (r.1 + 1, r.2)

/-! ### Trace projections -/

/-- Number of process spawns in a trace. -/
def spawnCount : List Event → Nat
  | [] => 0
  | .spawn _ :: l => spawnCount l + 1
  | _ :: l => spawnCount l

/-- The ephemeral-port values consumed by a trace, in allocation order. -/
def portVals : List Event → List Nat
  | [] => []
  | .allocPort v :: l => v :: portVals l
  | _ :: l => portVals l

/-- Spawn counts add over trace concatenation. -/
theorem spawnCount_append (l m : List Event) :
    spawnCount (l ++ m) = spawnCount l + spawnCount m := by
  induction l with
  | nil => simp [spawnCount]
  | cons e l ih => cases e <;> simp [spawnCount, ih] <;> omega

/-- Consumed ports concatenate over trace concatenation. -/
theorem portVals_append (l m : List Event) :
    portVals (l ++ m) = portVals l ++ portVals m := by
  induction l with
  | nil => simp [portVals]
  | cons e l ih => cases e <;> simp [portVals, ih]

/-! ### Theorems -/

/-- C4: `kill` selects its strategy exhaustively by the work-directory kind:
a Persistent handle gets the cooperative SIGINT first and, whenever the
signal could be delivered, a blocking `wait` that ends with the process
reaped; a Temporary handle gets exactly the immediate forced kill and never
waits for exit. -/
theorem c4_kill_strategy (s : ProcState) (path : String) :
    (kill (.persistent path) s).actions
        = (if s = .reaped then [.sigint] else [.sigint, .waitChild]) ∧
    (s ≠ .reaped →
      (kill (.persistent path) s).res = .ok () ∧
      (kill (.persistent path) s).state = .reaped) ∧
    (kill (.temporary path) s).actions = [.forceKill] ∧
    .waitChild ∉ (kill (.temporary path) s).actions := by
  cases s <;> simp [kill, sigintTo, childWait, childKill]

/-- C4 witness: terminating a running process with a Persistent work
directory succeeds and leaves it reaped. -/
theorem c4_kill_strategy_witness :
    (kill (.persistent "wd") .running).res = .ok () ∧
    (kill (.persistent "wd") .running).state = .reaped :=
  (c4_kill_strategy .running "wd").2.1 (by decide)

/-- C5: termination is idempotent and guaranteed at scope end. A second
`kill` issued after the process has already exited (zombie or reaped) never
blocks on a wait for a running process (and the model of `kill` has no
panicking operation); the `Drop` path always attempts termination (its first
action is a termination signal) and returns unit whatever `kill` returned,
so a termination error is suppressed rather than treated as a hard failure;
and the state a first `kill` of a running process leaves behind is again one
on which `kill` does not block. -/
theorem c5_idempotent_disposal (d : DirKind) (s : ProcState) (h : s ≠ .running) :
    (kill d s).blocked = false ∧
    (dropHandle d s).1 = () ∧
    (dropHandle d s).2.actions ≠ [] ∧
    ((dropHandle d s).2.actions.head? = some .sigint ∨
      (dropHandle d s).2.actions.head? = some .forceKill) ∧
    (kill d (kill d .running).state).blocked = false := by
  cases d <;> cases s <;> simp_all [kill, dropHandle, sigintTo, childWait, childKill]

/-- C5 witness: disposing a Temporary handle whose process already exited
performs a (forced) termination attempt and does not block. -/
theorem c5_idempotent_disposal_witness :
    (kill (.temporary "t") .zombie).blocked = false ∧
    (dropHandle (.temporary "t") .zombie).1 = () ∧
    (dropHandle (.temporary "t") .zombie).2.actions ≠ [] ∧
    ((dropHandle (.temporary "t") .zombie).2.actions.head? = some .sigint ∨
      (dropHandle (.temporary "t") .zombie).2.actions.head? = some .forceKill) ∧
    (kill (.temporary "t") (kill (.temporary "t") .running).state).blocked = false :=
  c5_idempotent_disposal (.temporary "t") .zombie (by decide)

/-- Auxiliary characterization of `wait_height`, for an arbitrary start
index: the call budget, the break-on-first-success behavior and the
give-up-after-budget behavior. -/
theorem waitHeight_spec (ok : Nat → Bool) :
    ∀ fuel i,
      (waitHeight ok fuel i).1 ≤ fuel ∧
      ((waitHeight ok fuel i).2 = true ↔ ∃ k, i ≤ k ∧ k < i + fuel ∧ ok k = true) ∧
      ((waitHeight ok fuel i).2 = true →
        ∃ k, i ≤ k ∧ k < i + fuel ∧ ok k = true ∧
          (∀ j, i ≤ j → j < k → ok j = false) ∧ (waitHeight ok fuel i).1 = k + 1 - i) ∧
      ((waitHeight ok fuel i).2 = false → (waitHeight ok fuel i).1 = fuel) := by
  intro fuel
  induction fuel with
  | zero =>
    intro i
    refine ⟨Nat.le_refl _, ?_, ?_, ?_⟩ <;> simp [waitHeight] <;> omega
  | succ fuel ih =>
    intro i
    by_cases h : ok i
    · refine ⟨?_, ?_, ?_, ?_⟩
      · simp [waitHeight, h]
      · simp only [waitHeight, h, if_pos]
        constructor
        · intro _; exact ⟨i, Nat.le_refl _, by omega, h⟩
        · intro _; trivial
      · intro _
        exact ⟨i, Nat.le_refl _, by omega, h, fun j hj hj2 => by omega,
          by simp [waitHeight, h] <;> omega⟩
      · intro hf
        simp [waitHeight, h] at hf
    · have hrec : waitHeight ok (fuel + 1) i
          = ((waitHeight ok fuel (i + 1)).1 + 1, (waitHeight ok fuel (i + 1)).2) := by
        simp [waitHeight, h]
      obtain ⟨ih1, ih2, ih3, ih4⟩ := ih (i + 1)
      refine ⟨?_, ?_, ?_, ?_⟩
      · rw [hrec]; simpa using Nat.add_le_add_right ih1 1
      · rw [hrec]
        simp only
        rw [ih2]
        constructor
        · rintro ⟨k, hk1, hk2, hk3⟩; exact ⟨k, by omega, by omega, hk3⟩
        · rintro ⟨k, hk1, hk2, hk3⟩
          refine ⟨k, ?_, by omega, hk3⟩
          rcases Nat.eq_or_lt_of_le hk1 with rfl | hlt
          · exact absurd hk3 (by simp [h])
          · omega
      · rw [hrec]
        simp only
        intro hs
        obtain ⟨k, hk1, hk2, hk3, hk4, hk5⟩ := ih3 hs
        refine ⟨k, by omega, by omega, hk3, ?_, by omega⟩
        intro j hj1 hj2
        rcases Nat.eq_or_lt_of_le hj1 with rfl | hlt
        · simpa using h
        · exact hk4 j (by omega) hj2
      · rw [hrec]
        simp only
        intro hf
        rw [ih4 hf]

/-- C7: `wait_height` polls the fetch-header call at most 600 times,
breaks exactly on the first successful call (so it returns early only once
a header at the requested height is fetchable), and when no call succeeds it
silently exhausts all 600 attempts; `ok k` is whether the
`block_header_raw(height)` call at iteration `k` succeeds. The function
returns no error by construction (its result is a plain pair). -/
theorem c7_wait_height (ok : Nat → Bool) :
    (waitHeight ok 600 0).1 ≤ 600 ∧
    ((waitHeight ok 600 0).2 = true ↔ ∃ k, k < 600 ∧ ok k = true) ∧
    ((waitHeight ok 600 0).2 = true →
      ∃ k, k < 600 ∧ ok k = true ∧ (∀ j, j < k → ok j = false) ∧
        (waitHeight ok 600 0).1 = k + 1) ∧
    ((waitHeight ok 600 0).2 = false → (waitHeight ok 600 0).1 = 600) := by
  obtain ⟨h1, h2, h3, h4⟩ := waitHeight_spec ok 600 0
  refine ⟨h1, ?_, ?_, h4⟩
  · rw [h2]
    constructor
    · rintro ⟨k, _, hk2, hk3⟩; exact ⟨k, by omega, hk3⟩
    · rintro ⟨k, hk1, hk2⟩; exact ⟨k, by omega, by omega, hk2⟩
  · intro hs
    obtain ⟨k, _, hk2, hk3, hk4, hk5⟩ := h3 hs
    exact ⟨k, by omega, hk3, fun j hj => hk4 j (by omega) hj, by omega⟩

/-- C7 witness: with a header that becomes fetchable at iteration 3, the
loop reports success. -/
theorem c7_wait_height_witness :
    (waitHeight (fun k => decide (k = 3)) 600 0).2 = true :=
  (c7_wait_height (fun k => decide (k = 3))).2.1.mpr ⟨3, by decide, by decide⟩

/-- An iteration of the readiness loop at which nothing decisive happens:
the child is observed still running and the connection attempt fails. -/
def quietAt (E : AttemptEnv) (j : Nat) : Prop :=
  E.tryWait j = .ok none ∧ E.connOk j = false

instance (E : AttemptEnv) (j : Nat) : Decidable (quietAt E j) := by
  unfold quietAt; infer_instance

/-- The readiness loop returns a client exactly when some iteration makes a
successful connection attempt on a live process, every earlier iteration
being a failed attempt on a live process. -/
theorem readyLoop_client_iff (E : AttemptEnv) :
    ∀ fuel i,
      (readyLoop E fuel i).1 = .client ↔
        ∃ k, i ≤ k ∧ k < i + fuel ∧ E.tryWait k = .ok none ∧ E.connOk k = true ∧
          ∀ j, i ≤ j → j < k → quietAt E j := by
  intro fuel
  induction fuel with
  | zero =>
    intro i
    simp only [readyLoop]
    constructor
    · intro h; exact absurd h (by simp)
    · rintro ⟨k, hk1, hk2, -⟩; omega
  | succ fuel ih =>
    intro i
    match htw : E.tryWait i with
    | .error u =>
      simp only [readyLoop, htw]
      constructor
      · intro h; exact absurd h (by simp)
      · rintro ⟨k, hk1, hk2, hk3, hk4, hk5⟩
        rcases Nat.eq_or_lt_of_le hk1 with rfl | hlt
        · rw [htw] at hk3; exact absurd hk3 (by simp)
        · obtain ⟨hq, -⟩ := hk5 i (Nat.le_refl _) hlt
          rw [htw] at hq; exact absurd hq (by simp)
    | .ok (some st) =>
      simp only [readyLoop, htw]
      constructor
      · intro h; exact absurd h (by simp)
      · rintro ⟨k, hk1, hk2, hk3, hk4, hk5⟩
        rcases Nat.eq_or_lt_of_le hk1 with rfl | hlt
        · rw [htw] at hk3; exact absurd hk3 (by simp)
        · obtain ⟨hq, -⟩ := hk5 i (Nat.le_refl _) hlt
          rw [htw] at hq; exact absurd hq (by simp)
    | .ok none =>
      by_cases hc : E.connOk i
      · simp only [readyLoop, htw, hc, if_pos]
        constructor
        · intro _
          exact ⟨i, Nat.le_refl _, by omega, htw, hc, fun j hj1 hj2 => by omega⟩
        · intro _; trivial
      · have hstep : readyLoop E (fuel + 1) i
            = ((readyLoop E fuel (i + 1)).1,
               .connectAttempt false :: .sleepMs 500 :: (readyLoop E fuel (i + 1)).2) := by
          simp [readyLoop, htw, hc]
        rw [hstep]
        simp only
        rw [ih (i + 1)]
        constructor
        · rintro ⟨k, hk1, hk2, hk3, hk4, hk5⟩
          refine ⟨k, by omega, by omega, hk3, hk4, ?_⟩
          intro j hj1 hj2
          rcases Nat.eq_or_lt_of_le hj1 with rfl | hlt
          · exact ⟨htw, by simpa using hc⟩
          · exact hk5 j hlt hj2
        · rintro ⟨k, hk1, hk2, hk3, hk4, hk5⟩
          rcases Nat.eq_or_lt_of_le hk1 with rfl | hlt
          · exact absurd hk4 (by simpa using hc)
          · exact ⟨k, hlt, by omega, hk3, hk4, fun j hj1 hj2 => hk5 j (by omega) hj2⟩

/-- The readiness loop propagates exit status `st` exactly when some
iteration observes the child exited with that status, every earlier
iteration being a failed connection attempt on a live process. -/
theorem readyLoop_exited_iff (E : AttemptEnv) (st : Nat) :
    ∀ fuel i,
      (readyLoop E fuel i).1 = .exited st ↔
        ∃ k, i ≤ k ∧ k < i + fuel ∧ E.tryWait k = .ok (some st) ∧
          ∀ j, i ≤ j → j < k → quietAt E j := by
  intro fuel
  induction fuel with
  | zero =>
    intro i
    simp only [readyLoop]
    constructor
    · intro h; exact absurd h (by simp)
    · rintro ⟨k, hk1, hk2, -⟩; omega
  | succ fuel ih =>
    intro i
    match htw : E.tryWait i with
    | .error u =>
      simp only [readyLoop, htw]
      constructor
      · intro h; exact absurd h (by simp)
      · rintro ⟨k, hk1, hk2, hk3, hk4⟩
        rcases Nat.eq_or_lt_of_le hk1 with rfl | hlt
        · rw [htw] at hk3; exact absurd hk3 (by simp)
        · obtain ⟨hq, -⟩ := hk4 i (Nat.le_refl _) hlt
          rw [htw] at hq; exact absurd hq (by simp)
    | .ok (some st2) =>
      simp only [readyLoop, htw]
      constructor
      · intro h
        have : st2 = st := by
          have := h
          simp at this
          omega
        subst this
        exact ⟨i, Nat.le_refl _, by omega, htw, fun j hj1 hj2 => by omega⟩
      · rintro ⟨k, hk1, hk2, hk3, hk4⟩
        rcases Nat.eq_or_lt_of_le hk1 with rfl | hlt
        · rw [htw] at hk3
          simp only [Except.ok.injEq, Option.some.injEq] at hk3
          simp [hk3]
        · obtain ⟨hq, -⟩ := hk4 i (Nat.le_refl _) hlt
          rw [htw] at hq; exact absurd hq (by simp)
    | .ok none =>
      by_cases hc : E.connOk i
      · simp only [readyLoop, htw, hc, if_pos]
        constructor
        · intro h; exact absurd h (by simp)
        · rintro ⟨k, hk1, hk2, hk3, hk4⟩
          rcases Nat.eq_or_lt_of_le hk1 with rfl | hlt
          · rw [htw] at hk3; exact absurd hk3 (by simp)
          · obtain ⟨-, hq⟩ := hk4 i (Nat.le_refl _) hlt
            rw [hc] at hq; exact absurd hq (by simp)
      · have hstep : readyLoop E (fuel + 1) i
            = ((readyLoop E fuel (i + 1)).1,
               .connectAttempt false :: .sleepMs 500 :: (readyLoop E fuel (i + 1)).2) := by
          simp [readyLoop, htw, hc]
        rw [hstep]
        simp only
        rw [ih (i + 1)]
        constructor
        · rintro ⟨k, hk1, hk2, hk3, hk4⟩
          refine ⟨k, by omega, by omega, hk3, ?_⟩
          intro j hj1 hj2
          rcases Nat.eq_or_lt_of_le hj1 with rfl | hlt
          · exact ⟨htw, by simpa using hc⟩
          · exact hk4 j hlt hj2
        · rintro ⟨k, hk1, hk2, hk3, hk4⟩
          rcases Nat.eq_or_lt_of_le hk1 with rfl | hlt
          · rw [htw] at hk3; exact absurd hk3 (by simp)
          · exact ⟨k, hlt, by omega, hk3, fun j hj1 hj2 => hk4 j (by omega) hj2⟩

/-- Every failed connection attempt in a readiness-loop trace is followed by
exactly one 500ms sleep. -/
theorem readyLoop_sleeps (E : AttemptEnv) :
    ∀ fuel i,
      (readyLoop E fuel i).2.countP (fun e => decide (e = .sleepMs 500))
        = (readyLoop E fuel i).2.countP (fun e => decide (e = .connectAttempt false)) := by
  intro fuel
  induction fuel with
  | zero => intro i; simp [readyLoop]
  | succ fuel ih =>
    intro i
    match htw : E.tryWait i with
    | .error u => simp [readyLoop, htw]
    | .ok (some st) => simp [readyLoop, htw]
    | .ok none =>
      by_cases hc : E.connOk i
      · simp [readyLoop, htw, hc]
      · simp only [readyLoop, htw, hc, if_neg, Bool.false_eq_true, not_false_eq_true]
        simp [List.countP_cons, ih (i + 1)]

/-- If the child never exits and no connection attempt ever succeeds, the
readiness loop is still polling after any number of iterations: it has no
attempt-count bound of its own. -/
theorem readyLoop_unbounded (E : AttemptEnv) (hq : ∀ k, quietAt E k) :
    ∀ fuel i, (readyLoop E fuel i).1 = .stillPolling := by
  intro fuel
  induction fuel with
  | zero => intro i; simp [readyLoop]
  | succ fuel ih =>
    intro i
    obtain ⟨h1, h2⟩ := hq i
    simp [readyLoop, h1, h2, ih (i + 1)]

/-- C2: the readiness loop terminates in exactly one of two ways — it
returns the client exactly when a connection attempt succeeds (all prior
iterations being failed attempts on a live process, and nothing further is
checked), and it propagates exit status `st` exactly when the child is
observed exited (again after only failed attempts); every failed attempt is
followed by one 500ms sleep; and on a trace where the child stays alive and
no connection ever succeeds the loop never gives up by count, whatever the
unrolling fuel. -/
theorem c2_readiness (E : AttemptEnv) (fuel : Nat) :
    ((readyLoop E fuel 0).1 = .client ↔
      ∃ k, k < fuel ∧ E.tryWait k = .ok none ∧ E.connOk k = true ∧
        ∀ j, j < k → quietAt E j) ∧
    (∀ st, (readyLoop E fuel 0).1 = .exited st ↔
      ∃ k, k < fuel ∧ E.tryWait k = .ok (some st) ∧
        ∀ j, j < k → quietAt E j) ∧
    ((readyLoop E fuel 0).2.countP (fun e => decide (e = .sleepMs 500))
      = (readyLoop E fuel 0).2.countP (fun e => decide (e = .connectAttempt false))) ∧
    ((∀ k, quietAt E k) → (readyLoop E fuel 0).1 = .stillPolling) := by
  refine ⟨?_, ?_, readyLoop_sleeps E fuel 0, fun hq => readyLoop_unbounded E hq fuel 0⟩
  · rw [readyLoop_client_iff E fuel 0]
    constructor
    · rintro ⟨k, -, hk2, hk3, hk4, hk5⟩
      exact ⟨k, by omega, hk3, hk4, fun j hj => hk5 j (by omega) hj⟩
    · rintro ⟨k, hk1, hk2, hk3, hk4⟩
      exact ⟨k, by omega, by omega, hk2, hk3, fun j _ hj => hk4 j hj⟩
  · intro st
    rw [readyLoop_exited_iff E st fuel 0]
    constructor
    · rintro ⟨k, -, hk2, hk3, hk4⟩
      exact ⟨k, by omega, hk3, fun j hj => hk4 j (by omega) hj⟩
    · rintro ⟨k, hk1, hk2, hk3⟩
      exact ⟨k, by omega, by omega, hk2, fun j _ hj => hk3 j hj⟩

/-- C2 witness: on a trace whose connection attempt succeeds at iteration 2
with the child alive throughout, the loop returns the client. -/
theorem c2_readiness_witness :
    (readyLoop
      ⟨.ok ⟨some false⟩, .ok "a", .ok (), .ok "/t", true, true,
        fun _ => .ok none, fun i => decide (2 ≤ i)⟩ 10 0).1 = .client :=
  (c2_readiness _ 10).1.mpr
    ⟨2, by decide, rfl, by decide,
      fun j hj => ⟨rfl, by simp only [decide_eq_false_iff_not]; omega⟩⟩

/-- A `wait_tx` run declares success only after fetching the transaction
payload at some iteration and verifying, when the transaction has outputs,
that the script-history of its FIRST output's script contains the
transaction's id (a transaction with zero outputs succeeds once fetched). -/
theorem waitTx_success_spec (env : Nat → TxIterEnv) :
    ∀ fuel i, waitTx env fuel i = .success →
      ∃ k, i ≤ k ∧ k < i + fuel ∧ ∃ tx, (env k).txGet = some tx ∧
        (tx.outputs = [] ∨
          ∃ s rest h, tx.outputs = s :: rest ∧ (env k).hist s = some h ∧ tx.txid ∈ h) := by
  intro fuel
  induction fuel with
  | zero => intro i h; exact absurd h (by simp [waitTx])
  | succ fuel ih =>
    intro i h
    match htx : (env i).txGet with
    | none =>
      rw [waitTx, htx] at h
      obtain ⟨k, hk1, hk2, hk3⟩ := ih (i + 1) h
      exact ⟨k, by omega, by omega, hk3⟩
    | some tx =>
      match ho : tx.outputs with
      | [] =>
        exact ⟨i, Nat.le_refl _, by omega, tx, htx, Or.inl ho⟩
      | s :: rest =>
        match hh : (env i).hist s with
        | none =>
          simp only [waitTx, htx, ho, hh] at h
          exact absurd h (by simp)
        | some hist =>
          by_cases hm : tx.txid ∈ hist
          · exact ⟨i, Nat.le_refl _, by omega, tx, htx, Or.inr ⟨s, rest, hist, ho, hh, hm⟩⟩
          · simp only [waitTx, htx, ho, hh, if_neg hm] at h
            obtain ⟨k, hk1, hk2, hk3⟩ := ih (i + 1) h
            exact ⟨k, by omega, by omega, hk3⟩

/-- When every `script_get_history` call succeeds, `wait_tx` never panics:
it either declares success or silently exhausts its budget. -/
theorem waitTx_no_panic (env : Nat → TxIterEnv)
    (hh : ∀ k s, (env k).hist s ≠ none) :
    ∀ fuel i, waitTx env fuel i = .success ∨ waitTx env fuel i = .gaveUp := by
  intro fuel
  induction fuel with
  | zero => intro i; exact Or.inr (by simp [waitTx])
  | succ fuel ih =>
    intro i
    match htx : (env i).txGet with
    | none => simp only [waitTx, htx]; exact ih (i + 1)
    | some tx =>
      match ho : tx.outputs with
      | [] => exact Or.inl (by simp only [waitTx, htx, ho])
      | s :: rest =>
        match hhist : (env i).hist s with
        | none => exact absurd hhist (hh i s)
        | some hist =>
          simp only [waitTx, htx, ho, hhist]
          by_cases hm : tx.txid ∈ hist
          · rw [if_pos hm]; exact Or.inl rfl
          · rw [if_neg hm]; exact ih (i + 1)

/-- A per-iteration client state on which the claim "success requires the
transaction's outputs' scripts to appear in the script-history index" fails:
the fetched transaction has two outputs, the first output's script history
contains the transaction id, the second output's history is empty. -/
def txCxEnv : Nat → TxIterEnv := fun _ =>
  { txGet := some ⟨5, [1, 2]⟩
    hist := fun s => if s = 1 then some [5] else some [] }

/-- C6 counterexample: `wait_tx` declares success on `txCxEnv` although the
second output's script (script 2) does not appear with the transaction's id
in the script-history index — the code verifies only the first output's
script, so the claim as stated ("the transaction's outputs' scripts appear
in the script-history index") is false. -/
theorem c6_claim_counterexample :
    waitTx txCxEnv 600 0 = .success ∧
    (txCxEnv 0).txGet = some ⟨5, [1, 2]⟩ ∧
    ¬ (∀ s ∈ [1, 2], (5 : Nat) ∈ ((txCxEnv 0).hist s).getD []) := by
  refine ⟨by decide, by decide, ?_⟩
  intro h
  have := h 2 (by decide)
  revert this
  decide

/-- C6 amended: `wait_tx` does not declare success until, after fetching the
transaction payload, its FIRST output's script is verified to appear in the
script-history index with the transaction's id (a transaction with zero
outputs is trivially considered fully indexed once fetched); and whenever
the history calls it unwraps succeed, it surfaces no error to the caller —
after exhausting its 600-iteration budget it gives up silently. -/
theorem c6_wait_tx_amended (env : Nat → TxIterEnv) :
    (waitTx env 600 0 = .success →
      ∃ k, k < 600 ∧ ∃ tx, (env k).txGet = some tx ∧
        (tx.outputs = [] ∨
          ∃ s rest h, tx.outputs = s :: rest ∧ (env k).hist s = some h ∧ tx.txid ∈ h)) ∧
    ((∀ k s, (env k).hist s ≠ none) →
      waitTx env 600 0 = .success ∨ waitTx env 600 0 = .gaveUp) := by
  constructor
  · intro h
    obtain ⟨k, -, hk2, hk3⟩ := waitTx_success_spec env 600 0 h
    exact ⟨k, by omega, hk3⟩
  · intro hh
    exact waitTx_no_panic env hh 600 0

/-- The trace of the nudge stage is one of three concrete prefixes. -/
theorem nudgeStep_events (E : AttemptEnv) :
    (nudgeStep E).2 = [.queryChainInfo] ∨
    (nudgeStep E).2 = [.queryChainInfo, .newAddress] ∨
    (nudgeStep E).2 = [.queryChainInfo, .newAddress, .mine 1] := by
  cases hc : E.chainInfo with
  | error e => simp [nudgeStep, hc]
  | ok info =>
    cases hib : info.initialblockdownload.getD false
    · simp [nudgeStep, hc, hib]
    · cases hna : E.newAddr with
      | error e2 => simp [nudgeStep, hc, hib, hna]
      | ok addr =>
        cases hg : E.gen with
        | error e3 => simp [nudgeStep, hc, hib, hna, hg]
        | ok u => simp [nudgeStep, hc, hib, hna, hg]

/-- Nudge-stage events never spawn a process or consume a port. -/
theorem nudgeStep_no_spawn_port (E : AttemptEnv) :
    ∀ e ∈ (nudgeStep E).2, e.isSpawnEv = false ∧ e.isPortEv = false := by
  rcases nudgeStep_events E with h | h | h <;> rw [h] <;>
    intro e he <;> simp only [List.mem_cons, List.mem_singleton, List.not_mem_nil] at he <;>
    rcases he with rfl | he <;>
    first
      | exact ⟨rfl, rfl⟩
      | (rcases he with rfl | he <;>
          first
            | exact ⟨rfl, rfl⟩
            | (rcases he with rfl | he <;> first | exact ⟨rfl, rfl⟩ | cases he))

/-- The first action of every launch is the upstream sync-state query. -/
theorem nudgeStep_head (E : AttemptEnv) :
    (nudgeStep E).2.head? = some .queryChainInfo := by
  rcases nudgeStep_events E with h | h | h <;> rw [h] <;> rfl

/-- The nudge performs a state-changing upstream call exactly when the
upstream daemon reports initial block download. -/
theorem nudgeStep_stateChange_iff (E : AttemptEnv) :
    (nudgeStep E).2.any Event.isStateChange = reportsIBD E := by
  cases hc : E.chainInfo with
  | error e => simp [nudgeStep, reportsIBD, hc, Event.isStateChange]
  | ok info =>
    cases hib : info.initialblockdownload.getD false
    · simp [nudgeStep, reportsIBD, hc, hib, Event.isStateChange]
    · cases hna : E.newAddr with
      | error e2 => simp [nudgeStep, reportsIBD, hc, hib, hna, Event.isStateChange]
      | ok addr =>
        cases hg : E.gen with
        | error e3 => simp [nudgeStep, reportsIBD, hc, hib, hna, hg, Event.isStateChange]
        | ok u => simp [nudgeStep, reportsIBD, hc, hib, hna, hg, Event.isStateChange]

/-- Every mining event a launch can emit generates exactly one block. -/
theorem nudgeStep_mine_one (E : AttemptEnv) :
    ∀ n, .mine n ∈ (nudgeStep E).2 → n = 1 := by
  intro n hn
  rcases nudgeStep_events E with h | h | h <;> rw [h] at hn <;> simp at hn
  exact hn

/-- A successful nudge under a reported initial block download requests one
address and mines one block, in that order, after the query. -/
theorem nudgeStep_ibd_ok (E : AttemptEnv) (h1 : reportsIBD E = true)
    (h2 : (nudgeStep E).1 = .ok ()) :
    (nudgeStep E).2 = [.queryChainInfo, .newAddress, .mine 1] := by
  cases hc : E.chainInfo with
  | error e => simp only [reportsIBD, hc] at h1; exact absurd h1 (by simp)
  | ok info =>
    simp only [reportsIBD, hc] at h1
    cases hna : E.newAddr with
    | error e2 =>
      simp only [nudgeStep, hc, hna, h1, if_pos] at h2
      exact absurd h2 (by simp)
    | ok addr =>
      cases hg : E.gen with
      | error e3 =>
        simp only [nudgeStep, hc, hna, hg, h1, if_pos] at h2
        exact absurd h2 (by simp)
      | ok u => simp [nudgeStep, hc, h1, hna, hg]

/-- When the upstream does not report initial block download, the nudge
stage only queries (and either succeeds or propagates the query error). -/
theorem nudgeStep_not_ibd (E : AttemptEnv) (h : reportsIBD E = false) :
    (nudgeStep E).2 = [.queryChainInfo] := by
  cases hc : E.chainInfo with
  | error e => simp [nudgeStep, hc]
  | ok info =>
    simp only [reportsIBD, hc] at h
    simp [nudgeStep, hc, h]

/-- The launch outcome that work-directory resolution forces when both
directory options are set, as a function of the nudge stage's result. -/
def bothDirsResult : StepRes Unit → RunOutcome
  | .ok _ => .err .bothDirsSpecified
  | .err e => .err e
  | .panicked => .panicked

/-- With both directory options set, a launch attempt stops at directory
resolution: it performs exactly the nudge-stage events, leaves the port
counter untouched, and its outcome is `BothDirsSpecified` unless the nudge
already failed. -/
theorem attemptOnce_bothDirs (W : World) (F : Features) (params : Params)
    (fuel a : Nat) (conf : Conf) (p : Nat) (t s : String)
    (ht : conf.tmpdir = some t) (hs : conf.staticdir = some s) :
    attemptOnce W F params fuel a conf p
      = (.done (bothDirsResult (nudgeStep (W.env a)).1), (nudgeStep (W.env a)).2, p) := by
  unfold attemptOnce
  rcases hn : nudgeStep (W.env a) with ⟨r, evs⟩
  cases r with
  | ok u => simp [resolveDir, ht, hs, bothDirsResult]
  | err e => simp [bothDirsResult]
  | panicked => simp [bothDirsResult]

/-- Stepping lemma: a decided attempt is the whole launch. -/
theorem withConfA_done (W : World) (F : Features) (params : Params)
    (fuel a : Nat) (conf : Conf) (p : Nat) (r : RunOutcome) (evs : List Event) (p2 : Nat)
    (h : attemptOnce W F params fuel a conf p = (.done r, evs, p2)) :
    withConfA W F params fuel a conf p = (r, evs, p2) := by
  cases a <;> (unfold withConfA; rw [h]) <;> rfl

/-- Stepping lemma: an early exit with an exhausted budget is the
`EarlyExit` failure. -/
theorem withConfA_exhausted (W : World) (F : Features) (params : Params)
    (fuel : Nat) (conf : Conf) (p : Nat) (st : Nat) (evs : List Event) (p2 : Nat)
    (h : attemptOnce W F params fuel 0 conf p = (.earlyExit st, evs, p2)) :
    withConfA W F params fuel 0 conf p = (.err (.earlyExit st), evs, p2) := by
  unfold withConfA; rw [h]

/-- Stepping lemma: an early exit with remaining budget re-enters the whole
launch with the budget decremented and the port counter advanced. -/
theorem withConfA_retry (W : World) (F : Features) (params : Params)
    (fuel b : Nat) (conf : Conf) (p : Nat) (st : Nat) (evs : List Event) (p2 : Nat)
    (h : attemptOnce W F params fuel (b + 1) conf p = (.earlyExit st, evs, p2)) :
    withConfA W F params fuel (b + 1) conf p
      = ((withConfA W F params fuel b conf p2).1,
         evs ++ (withConfA W F params fuel b conf p2).2.1,
         (withConfA W F params fuel b conf p2).2.2) := by
  conv_lhs => rw [withConfA]
  rw [h]

/-- C3: for every configuration with both `tmpdir` and `staticdir` set, no
trace of the launch contains a process spawn or a port allocation, the port
counter is returned untouched, and whenever the upstream calls preceding
validation succeed the launch returns the `BothDirsSpecified` error. -/
theorem c3_both_dirs (W : World) (F : Features) (params : Params)
    (fuel : Nat) (conf : Conf) (p : Nat) (t s : String)
    (ht : conf.tmpdir = some t) (hs : conf.staticdir = some s) :
    (∀ e ∈ (withConf W F params fuel conf p).2.1,
      e.isSpawnEv = false ∧ e.isPortEv = false) ∧
    (withConf W F params fuel conf p).2.2 = p ∧
    ((nudgeStep (W.env conf.attempts)).1 = .ok () →
      (withConf W F params fuel conf p).1 = .err .bothDirsSpecified) := by
  have ha := attemptOnce_bothDirs W F params fuel conf.attempts conf p t s ht hs
  have hw := withConfA_done W F params fuel conf.attempts conf p _ _ _ ha
  unfold withConf
  rw [hw]
  refine ⟨nudgeStep_no_spawn_port _, rfl, ?_⟩
  intro hok
  simp only [hok, bothDirsResult]

/-- C3 witness: a concrete conflicting configuration with a healthy
upstream yields `BothDirsSpecified`, no spawn and no port consumption. -/
theorem c3_both_dirs_witness :
    (∀ e ∈ (withConf
        ⟨fun _ => ⟨.ok ⟨some false⟩, .ok "a", .ok (), .ok "/t", true, true,
          fun _ => .ok none, fun _ => true⟩, fun i => some i, none, .ok "ck"⟩
        ⟨false, false, false⟩ ⟨"cf", "rpc", some "p2p"⟩ 5
        ⟨[], false, false, "dev", some "/tmp", some "/var", 3⟩ 0).2.1,
      e.isSpawnEv = false ∧ e.isPortEv = false) ∧
    (withConf
        ⟨fun _ => ⟨.ok ⟨some false⟩, .ok "a", .ok (), .ok "/t", true, true,
          fun _ => .ok none, fun _ => true⟩, fun i => some i, none, .ok "ck"⟩
        ⟨false, false, false⟩ ⟨"cf", "rpc", some "p2p"⟩ 5
        ⟨[], false, false, "dev", some "/tmp", some "/var", 3⟩ 0).2.2 = 0 ∧
    ((nudgeStep ((⟨fun _ => ⟨.ok ⟨some false⟩, .ok "a", .ok (), .ok "/t", true, true,
          fun _ => .ok none, fun _ => true⟩, fun i => some i, none, .ok "ck"⟩ : World).env 3)).1
        = .ok () →
      (withConf
        ⟨fun _ => ⟨.ok ⟨some false⟩, .ok "a", .ok (), .ok "/t", true, true,
          fun _ => .ok none, fun _ => true⟩, fun i => some i, none, .ok "ck"⟩
        ⟨false, false, false⟩ ⟨"cf", "rpc", some "p2p"⟩ 5
        ⟨[], false, false, "dev", some "/tmp", some "/var", 3⟩ 0).1
          = .err .bothDirsSpecified) :=
  c3_both_dirs _ _ _ 5 _ 0 "/tmp" "/var" rfl rfl

/-- C10: with both directory options set, the launch still begins with the
upstream sync-state query; when that query fails the caller observes the
upstream RPC error rather than the configuration-conflict error; and when
the query reports initial block download (with the nudge calls succeeding)
the address request and one-block mine happen before the
`BothDirsSpecified` error is returned. -/
theorem c10_validation_not_first (W : World) (F : Features) (params : Params)
    (fuel : Nat) (conf : Conf) (p : Nat) (t s : String)
    (ht : conf.tmpdir = some t) (hs : conf.staticdir = some s) :
    ((withConf W F params fuel conf p).2.1.head? = some .queryChainInfo) ∧
    (∀ e, (W.env conf.attempts).chainInfo = .error e →
      (withConf W F params fuel conf p).1 = .err (.rpc e)) ∧
    (∀ info addr, (W.env conf.attempts).chainInfo = .ok info →
      info.initialblockdownload = some true →
      (W.env conf.attempts).newAddr = .ok addr →
      (W.env conf.attempts).gen = .ok () →
      (withConf W F params fuel conf p).2.1 = [.queryChainInfo, .newAddress, .mine 1] ∧
      (withConf W F params fuel conf p).1 = .err .bothDirsSpecified) := by
  have ha := attemptOnce_bothDirs W F params fuel conf.attempts conf p t s ht hs
  have hw := withConfA_done W F params fuel conf.attempts conf p _ _ _ ha
  unfold withConf
  rw [hw]
  refine ⟨nudgeStep_head _, ?_, ?_⟩
  · intro e hce
    simp [nudgeStep, hce, bothDirsResult]
  · intro info addr hci hib hna hg
    constructor
    · simp [nudgeStep, hci, hib, hna, hg]
    · simp [nudgeStep, hci, hib, hna, hg, bothDirsResult]

/-- A port-allocation event is not a state-changing upstream call. -/
theorem port_not_stateChange (e : Event) (h : e.isPortEv = true) :
    e.isStateChange = false := by
  cases e <;> simp_all [Event.isPortEv, Event.isStateChange]

/-- Argument building only allocates ports: every event it emits is a port
allocation. -/
theorem buildArgs_events_ports (W : World) (F : Features) (params : Params)
    (conf : Conf) (d : String) (p : Nat) :
    ∀ e ∈ (buildArgs W F params conf d p).2.1, e.isPortEv = true := by
  intro e he
  unfold buildArgs at he
  repeat' split at he
  all_goals
    simp only [List.mem_cons, List.mem_singleton, List.not_mem_nil, or_false] at he
  all_goals try rcases he with rfl | rfl | rfl
  all_goals try rcases he with rfl | rfl
  all_goals try rcases he with rfl
  all_goals rfl

/-- Readiness-loop events are connection attempts and sleeps only. -/
theorem readyLoop_events_conn (E : AttemptEnv) :
    ∀ fuel i, ∀ e ∈ (readyLoop E fuel i).2,
      e = .connectAttempt true ∨ e = .connectAttempt false ∨ e = .sleepMs 500 := by
  intro fuel
  induction fuel with
  | zero => intro i e he; simp [readyLoop] at he
  | succ fuel ih =>
    intro i e he
    match htw : E.tryWait i with
    | .error u => rw [readyLoop, htw] at he; simp at he
    | .ok (some st) => rw [readyLoop, htw] at he; simp at he
    | .ok none =>
      by_cases hc : E.connOk i
      · simp [readyLoop, htw, hc] at he
        simp [he]
      · simp only [readyLoop, htw, hc, Bool.false_eq_true, if_false, List.mem_cons] at he
        rcases he with rfl | rfl | he
        · simp
        · simp
        · exact ih (i + 1) e he

/-- One attempt's trace is the nudge-stage trace followed by events none of
which is a state-changing upstream call. -/
theorem attemptOnce_events (W : World) (F : Features) (params : Params)
    (fuel a : Nat) (conf : Conf) (p : Nat) :
    ∃ rest, (attemptOnce W F params fuel a conf p).2.1 = (nudgeStep (W.env a)).2 ++ rest ∧
      ∀ e ∈ rest, e.isStateChange = false := by
  unfold attemptOnce
  rcases hn : nudgeStep (W.env a) with ⟨r, evs⟩
  cases r with
  | err e => exact ⟨[], by simp, by simp⟩
  | panicked => exact ⟨[], by simp, by simp⟩
  | ok u =>
    cases hd : resolveDir W (W.env a) conf with
    | error e => exact ⟨[], by simp, by simp⟩
    | ok dir =>
      rcases hb : buildArgs W F params conf dir.path p with ⟨br, evs2, p2⟩
      have hports : ∀ e ∈ evs2, e.isStateChange = false := by
        intro e he
        refine port_not_stateChange e ?_
        have := buildArgs_events_ports W F params conf dir.path p
        rw [hb] at this
        exact this e he
      cases br with
      | err e =>
        refine ⟨[.resolveDir] ++ evs2, by simp [hb], ?_⟩
        intro e he
        simp only [List.mem_append, List.mem_singleton] at he
        rcases he with rfl | he
        · rfl
        · exact hports e he
      | panicked =>
        refine ⟨[.resolveDir] ++ evs2, by simp [hb], ?_⟩
        intro e he
        simp only [List.mem_append, List.mem_singleton] at he
        rcases he with rfl | he
        · rfl
        · exact hports e he
      | ok t =>
        rcases t with ⟨args, eUrl, esp⟩
        by_cases hsp : (W.env a).spawnOk
        · rcases hl : readyLoop (W.env a) fuel 0 with ⟨lr, levs⟩
          have hlevs : ∀ e ∈ levs, e.isStateChange = false := by
            intro e he
            have := readyLoop_events_conn (W.env a) fuel 0 e (by rw [hl]; exact he)
            rcases this with rfl | rfl | rfl <;> rfl
          have hrest : ∀ e ∈ [Event.resolveDir] ++ evs2 ++ [Event.spawn args] ++ levs,
              e.isStateChange = false := by
            intro e he
            simp only [List.mem_append, List.mem_singleton] at he
            rcases he with ((rfl | he) | rfl) | he
            · rfl
            · exact hports e he
            · rfl
            · exact hlevs e he
          cases lr with
          | client => exact ⟨_, by simp [hb, hl, hsp], hrest⟩
          | exited st => exact ⟨_, by simp [hb, hl, hsp], hrest⟩
          | ioErr => exact ⟨_, by simp [hb, hl, hsp], hrest⟩
          | stillPolling => exact ⟨_, by simp [hb, hl, hsp], hrest⟩
        · refine ⟨[.resolveDir] ++ evs2, by simp [hb, hsp], ?_⟩
          intro e he
          simp only [List.mem_append, List.mem_singleton] at he
          rcases he with rfl | he
          · rfl
          · exact hports e he

/-- When no invocation's upstream reports initial block download, the whole
launch trace (retries included) contains no state-changing upstream call. -/
theorem withConfA_no_stateChange (W : World) (F : Features) (params : Params)
    (fuel : Nat) (conf : Conf) (hibd : ∀ a, reportsIBD (W.env a) = false) :
    ∀ a p, ∀ e ∈ (withConfA W F params fuel a conf p).2.1, e.isStateChange = false := by
  intro a
  induction a with
  | zero =>
    intro p e he
    obtain ⟨rest, hre, hrest⟩ := attemptOnce_events W F params fuel 0 conf p
    rcases hA : attemptOnce W F params fuel 0 conf p with ⟨ar, evs, p2⟩
    have hevs : evs = (nudgeStep (W.env 0)).2 ++ rest := by rw [hA] at hre; exact hre
    cases ar with
    | done r =>
      rw [withConfA_done W F params fuel 0 conf p r evs p2 hA] at he
      rw [hevs, nudgeStep_not_ibd _ (hibd 0)] at he
      simp only [List.mem_append, List.mem_singleton] at he
      rcases he with rfl | he
      · rfl
      · exact hrest e he
    | earlyExit st =>
      rw [withConfA_exhausted W F params fuel conf p st evs p2 hA] at he
      rw [hevs, nudgeStep_not_ibd _ (hibd 0)] at he
      simp only [List.mem_append, List.mem_singleton] at he
      rcases he with rfl | he
      · rfl
      · exact hrest e he
  | succ b ih =>
    intro p e he
    obtain ⟨rest, hre, hrest⟩ := attemptOnce_events W F params fuel (b + 1) conf p
    rcases hA : attemptOnce W F params fuel (b + 1) conf p with ⟨ar, evs, p2⟩
    have hevs : evs = (nudgeStep (W.env (b + 1))).2 ++ rest := by rw [hA] at hre; exact hre
    cases ar with
    | done r =>
      rw [withConfA_done W F params fuel (b + 1) conf p r evs p2 hA] at he
      rw [hevs, nudgeStep_not_ibd _ (hibd (b + 1))] at he
      simp only [List.mem_append, List.mem_singleton] at he
      rcases he with rfl | he
      · rfl
      · exact hrest e he
    | earlyExit st =>
      rw [withConfA_retry W F params fuel b conf p st evs p2 hA] at he
      simp only [List.mem_append] at he
      rcases he with he | he
      · rw [hevs, nudgeStep_not_ibd _ (hibd (b + 1))] at he
        simp only [List.mem_append, List.mem_singleton] at he
        rcases he with rfl | he
        · rfl
        · exact hrest e he
      · exact ih p2 e he

/-- The launch trace starts with the first invocation's nudge-stage events:
the sync-state query (and any nudge) precedes directory resolution, port
allocation and the spawn. -/
theorem withConfA_take_nudge (W : World) (F : Features) (params : Params)
    (fuel a : Nat) (conf : Conf) (p : Nat) :
    (withConfA W F params fuel a conf p).2.1.take (nudgeStep (W.env a)).2.length
      = (nudgeStep (W.env a)).2 := by
  obtain ⟨rest, hre, -⟩ := attemptOnce_events W F params fuel a conf p
  rcases hA : attemptOnce W F params fuel a conf p with ⟨ar, evs, p2⟩
  have hevs : evs = (nudgeStep (W.env a)).2 ++ rest := by rw [hA] at hre; exact hre
  cases ar with
  | done r =>
    rw [withConfA_done W F params fuel a conf p r evs p2 hA, hevs]
    exact List.take_left _ _
  | earlyExit st =>
    cases a with
    | zero =>
      rw [withConfA_exhausted W F params fuel conf p st evs p2 hA, hevs]
      exact List.take_left _ _
    | succ b =>
      rw [withConfA_retry W F params fuel b conf p st evs p2 hA]
      simp only [hevs, List.append_assoc]
      exact List.take_left _ _

/-- C9: at the start of every launch the upstream sync state is queried (the
query heads the nudge trace and the whole launch trace); the nudge performs
a state-changing upstream call if and only if the upstream reports initial
block download, in which case (when its calls succeed) it requests one
address and mines exactly one block; every mining event mines exactly one
block; when no invocation's upstream reports initial block download the
entire launch performs no state-changing upstream call; and the nudge-stage
events precede everything else in the launch trace (in particular all port
allocations and the spawn, i.e. the building of the child's arguments). -/
theorem c9_ibd_nudge :
    (∀ E : AttemptEnv, (nudgeStep E).2.any Event.isStateChange = reportsIBD E) ∧
    (∀ E : AttemptEnv, (nudgeStep E).2.head? = some .queryChainInfo) ∧
    (∀ (E : AttemptEnv) n, .mine n ∈ (nudgeStep E).2 → n = 1) ∧
    (∀ E : AttemptEnv, reportsIBD E = true → (nudgeStep E).1 = .ok () →
      (nudgeStep E).2 = [.queryChainInfo, .newAddress, .mine 1]) ∧
    (∀ (W : World) (F : Features) (params : Params) (fuel : Nat) (conf : Conf) (p : Nat),
      (∀ a, reportsIBD (W.env a) = false) →
      ∀ e ∈ (withConf W F params fuel conf p).2.1, e.isStateChange = false) ∧
    (∀ (W : World) (F : Features) (params : Params) (fuel : Nat) (conf : Conf) (p : Nat),
      (withConf W F params fuel conf p).2.1.take (nudgeStep (W.env conf.attempts)).2.length
        = (nudgeStep (W.env conf.attempts)).2) :=
  ⟨nudgeStep_stateChange_iff, nudgeStep_head, nudgeStep_mine_one, nudgeStep_ibd_ok,
    fun W F params fuel conf p hibd =>
      withConfA_no_stateChange W F params fuel conf hibd conf.attempts p,
    fun W F params fuel conf p =>
      withConfA_take_nudge W F params fuel conf.attempts conf p⟩

/-- C9 witness: an upstream that reports initial block download and accepts
the nudge produces exactly the query, one address request and one single
block mined. -/
theorem c9_ibd_nudge_witness :
    (nudgeStep ⟨.ok ⟨some true⟩, .ok "addr", .ok (), .ok "/t", true, true,
        fun _ => .ok none, fun _ => true⟩).2
      = [.queryChainInfo, .newAddress, .mine 1] :=
  c9_ibd_nudge.2.2.2.1
    ⟨.ok ⟨some true⟩, .ok "addr", .ok (), .ok "/t", true, true,
      fun _ => .ok none, fun _ => true⟩ (by decide) rfl

/-- C10 witness: with both directories set and a failing upstream query,
the launch surfaces the RPC error. -/
theorem c10_validation_not_first_witness :
    (withConf
        ⟨fun _ => ⟨.error 42, .ok "a", .ok (), .ok "/t", true, true,
          fun _ => .ok none, fun _ => true⟩, fun i => some i, none, .ok "ck"⟩
        ⟨false, false, false⟩ ⟨"cf", "rpc", some "p2p"⟩ 5
        ⟨[], false, false, "dev", some "/tmp", some "/var", 3⟩ 0).1
      = .err (.rpc 42) :=
  (c10_validation_not_first _ _ _ 5 _ 0 "/tmp" "/var" rfl rfl).2.1 42 rfl

/-- Spec-side description of a freshly allocated listening address: the
wildcard host with the port the allocator returns at position `i`. -/
def portUrl (W : World) (i : Nat) : String :=
  "0.0.0.0:" ++ toString ((W.ports i).getD 0)

/-- Spec-side description of the credential reference: exactly one of the
inline cookie value (legacy mode) or the cookie file path. -/
def cookieArgsSpec (W : World) (F : Features) (params : Params) : List String :=
  if F.legacy then ["--cookie", W.cookieContents.toOption.getD ""]
  else ["--cookie-file", params.cookieFile]

/-- Spec-side description of the upstream-connection mode: exactly one of
the json-rpc import flag or the upstream p2p address. -/
def daemonArgsSpec (F : Features) (params : Params) : List String :=
  if importMode F then ["--jsonrpc-import"]
  else ["--daemon-p2p-addr", params.p2pSocket.getD ""]

/-- Spec-side description of the optional HTTP endpoint flag: present
exactly when the configuration enables it. -/
def httpArgsSpec (W : World) (conf : Conf) (p : Nat) : List String :=
  if conf.httpEnabled then ["--http-addr", portUrl W (p + 2)] else []

/-- A successful cookie stage produces exactly the spec-side credential
reference. -/
theorem cookieStep_ok (W : World) (F : Features) (params : Params)
    (cargs : List String) (h : cookieStep W F params = .ok cargs) :
    cargs = cookieArgsSpec W F params := by
  unfold cookieStep at h
  unfold cookieArgsSpec
  by_cases hl : F.legacy = true
  · rw [if_pos hl] at h
    rw [if_pos hl]
    cases hcc : W.cookieContents with
    | error u => simp [hcc] at h
    | ok v =>
      simp only [hcc] at h
      simp only [Except.ok.injEq] at h
      rw [← h]
      simp [Except.toOption]
  · rw [if_neg hl] at h
    rw [if_neg hl]
    simp only [Except.ok.injEq] at h
    exact h.symm

/-- A successful daemon-mode stage produces exactly the spec-side
upstream-connection arguments. -/
theorem daemonStep_ok (F : Features) (params : Params)
    (dargs : List String) (h : daemonStep F params = .ok dargs) :
    dargs = daemonArgsSpec F params := by
  unfold daemonStep at h
  unfold daemonArgsSpec
  by_cases hi : importMode F = true
  · rw [if_pos hi] at h
    rw [if_pos hi]
    simp only [StepRes.ok.injEq] at h
    exact h.symm
  · rw [if_neg hi] at h
    rw [if_neg hi]
    cases hp : params.p2pSocket with
    | none => simp [hp] at h
    | some s =>
      simp only [hp] at h
      simp only [StepRes.ok.injEq] at h
      rw [← h]
      simp

/-- Characterization of a successful argument build: the command line is
the caller's extra arguments followed by the data directory, the network,
exactly one credential reference, the upstream RPC address, exactly one
upstream-connection mode, the two freshly allocated listening addresses and
the HTTP flag exactly when enabled; the returned esplora URL is present
exactly when HTTP is enabled. -/
theorem buildArgs_spec (W : World) (F : Features) (params : Params)
    (conf : Conf) (dirPath : String) (p : Nat)
    (args : List String) (eUrl : String) (esp : Option String)
    (evs : List Event) (p2 : Nat)
    (h : buildArgs W F params conf dirPath p = (.ok (args, eUrl, esp), evs, p2)) :
    args = conf.args ++ ["--db-dir", dirPath, "--network", conf.network]
      ++ cookieArgsSpec W F params
      ++ ["--daemon-rpc-addr", params.rpcSocket]
      ++ daemonArgsSpec F params
      ++ ["--electrum-rpc-addr", portUrl W p, "--monitoring-addr", portUrl W (p + 1)]
      ++ httpArgsSpec W conf p ∧
    eUrl = portUrl W p ∧
    esp = (if conf.httpEnabled then some (portUrl W (p + 2)) else none) ∧
    esp.isSome = conf.httpEnabled := by
  unfold buildArgs at h
  repeat' split at h
  all_goals simp at h
  next x1 cargs hck x2 dargs hdm x3 ev hev x4 mv hmv hhttp x5 hv hhv =>
    obtain ⟨⟨hargs, heUrl, hesp⟩, hevs, hp2⟩ := h
    have hcs := cookieStep_ok W F params cargs hck
    have hds := daemonStep_ok F params dargs hdm
    subst hcs hds hargs heUrl hesp
    refine ⟨?_, ?_, ?_, ?_⟩
    · simp [portUrl, hev, hmv, httpArgsSpec, hhttp, hhv]
    · simp [portUrl, hev]
    · simp [portUrl, hhttp, hhv]
    · simp [hhttp]
  next x1 cargs hck x2 dargs hdm x3 ev hev x4 mv hmv hhttp =>
    obtain ⟨⟨hargs, heUrl, hesp⟩, hevs, hp2⟩ := h
    have hcs := cookieStep_ok W F params cargs hck
    have hds := daemonStep_ok F params dargs hdm
    subst hcs hds hargs heUrl hesp
    refine ⟨?_, ?_, ?_, ?_⟩
    · simp [portUrl, hev, hmv, httpArgsSpec, hhttp]
    · simp [portUrl, hev]
    · simp [hhttp]
    · simp [hhttp]

/-- A successful attempt's handle has its esplora URL exactly when HTTP is
enabled, and its electrum URL occurs as the value of the
`--electrum-rpc-addr` flag in the spawned child's arguments. -/
theorem attemptOnce_ok_handle (W : World) (F : Features) (params : Params)
    (fuel a : Nat) (conf : Conf) (p : Nat) (h : Handle)
    (evs : List Event) (p2 : Nat)
    (hA : attemptOnce W F params fuel a conf p = (.done (.ok h), evs, p2)) :
    h.esploraUrl.isSome = conf.httpEnabled ∧
    ∃ args, .spawn args ∈ evs ∧
      ∃ l1 l2, args = l1 ++ ["--electrum-rpc-addr", h.electrumUrl] ++ l2 := by
  unfold attemptOnce at hA
  repeat' split at hA
  all_goals simp at hA
  next x1 u nevs hn x2 dir hd x3 args eUrl esp evs2 p2x hb hsp x4 levs hl =>
    obtain ⟨hh, hevs, -⟩ := hA
    obtain ⟨hargs, heUrl, -, hespSome⟩ :=
      buildArgs_spec W F params conf dir.path p args eUrl esp evs2 p2x hb
    subst hh hevs
    constructor
    · exact hespSome
    · refine ⟨args, by simp, ?_⟩
      refine ⟨conf.args ++ ["--db-dir", dir.path, "--network", conf.network]
        ++ cookieArgsSpec W F params ++ ["--daemon-rpc-addr", params.rpcSocket]
        ++ daemonArgsSpec F params,
        "--monitoring-addr" :: portUrl W (p + 1) :: httpArgsSpec W conf p, ?_⟩
      rw [hargs]
      simp [heUrl, List.append_assoc]

/-- Every successful launch returns a handle whose esplora URL is present
exactly when HTTP was requested, whose electrum URL is the value passed to
the spawned child's `--electrum-rpc-addr` flag, with the spawn recorded in
the launch trace. -/
theorem withConfA_ok_handle (W : World) (F : Features) (params : Params)
    (fuel : Nat) (conf : Conf) :
    ∀ a p h, (withConfA W F params fuel a conf p).1 = .ok h →
      h.esploraUrl.isSome = conf.httpEnabled ∧
      ∃ args, .spawn args ∈ (withConfA W F params fuel a conf p).2.1 ∧
        ∃ l1 l2, args = l1 ++ ["--electrum-rpc-addr", h.electrumUrl] ++ l2 := by
  intro a
  induction a with
  | zero =>
    intro p h hok
    rcases hA : attemptOnce W F params fuel 0 conf p with ⟨ar, evs, p2⟩
    cases ar with
    | done r =>
      have hw := withConfA_done W F params fuel 0 conf p r evs p2 hA
      rw [hw] at hok ⊢
      simp only at hok ⊢
      subst hok
      exact attemptOnce_ok_handle W F params fuel 0 conf p h evs p2 hA
    | earlyExit st =>
      have hw := withConfA_exhausted W F params fuel conf p st evs p2 hA
      rw [hw] at hok
      exact absurd hok (by simp)
  | succ b ih =>
    intro p h hok
    rcases hA : attemptOnce W F params fuel (b + 1) conf p with ⟨ar, evs, p2⟩
    cases ar with
    | done r =>
      have hw := withConfA_done W F params fuel (b + 1) conf p r evs p2 hA
      rw [hw] at hok ⊢
      simp only at hok ⊢
      subst hok
      exact attemptOnce_ok_handle W F params fuel (b + 1) conf p h evs p2 hA
    | earlyExit st =>
      have hw := withConfA_retry W F params fuel b conf p st evs p2 hA
      rw [hw] at hok ⊢
      simp only at hok ⊢
      obtain ⟨h1, args, hmem, hshape⟩ := ih p2 h hok
      exact ⟨h1, args, by simp [hmem], hshape⟩

/-- C8: a successful argument build yields the command line consisting of
the caller's extra arguments, `--db-dir` with the resolved directory,
`--network`, exactly one of the cookie-file / inline-cookie references (by
compatibility mode), the upstream RPC address, exactly one of
`--jsonrpc-import` / `--daemon-p2p-addr` (by compatibility mode), the
freshly allocated electrum and monitoring addresses and `--http-addr`
exactly when HTTP is enabled; correspondingly every launch that returns a
handle gives it an esplora URL exactly when HTTP is enabled and an electrum
URL that is the `--electrum-rpc-addr` value of the spawned child. -/
theorem c8_cli_surface :
    (∀ (W : World) (F : Features) (params : Params) (conf : Conf)
      (dirPath : String) (p : Nat) (args : List String) (eUrl : String)
      (esp : Option String) (evs : List Event) (p2 : Nat),
      buildArgs W F params conf dirPath p = (.ok (args, eUrl, esp), evs, p2) →
      args = conf.args ++ ["--db-dir", dirPath, "--network", conf.network]
        ++ cookieArgsSpec W F params
        ++ ["--daemon-rpc-addr", params.rpcSocket]
        ++ daemonArgsSpec F params
        ++ ["--electrum-rpc-addr", portUrl W p, "--monitoring-addr", portUrl W (p + 1)]
        ++ httpArgsSpec W conf p ∧
      eUrl = portUrl W p ∧
      esp = (if conf.httpEnabled then some (portUrl W (p + 2)) else none) ∧
      esp.isSome = conf.httpEnabled) ∧
    (∀ (W : World) (F : Features) (params : Params) (fuel : Nat) (conf : Conf)
      (p : Nat) (h : Handle),
      (withConf W F params fuel conf p).1 = .ok h →
      h.esploraUrl.isSome = conf.httpEnabled ∧
      ∃ args, .spawn args ∈ (withConf W F params fuel conf p).2.1 ∧
        ∃ l1 l2, args = l1 ++ ["--electrum-rpc-addr", h.electrumUrl] ++ l2) :=
  ⟨fun W F params conf dirPath p args eUrl esp evs p2 h =>
      buildArgs_spec W F params conf dirPath p args eUrl esp evs p2 h,
    fun W F params fuel conf p h hok =>
      withConfA_ok_handle W F params fuel conf conf.attempts p h hok⟩

/-- C8 witness: a concrete HTTP-enabled configuration builds successfully
and its esplora URL is present. -/
theorem c8_cli_surface_witness :
    ∃ args eUrl esp evs p2,
      buildArgs
        ⟨fun _ => ⟨.ok ⟨some false⟩, .ok "a", .ok (), .ok "/t", true, true,
          fun _ => .ok none, fun _ => true⟩, fun i => some (7000 + i), none, .ok "ck"⟩
        ⟨false, false, false⟩ ⟨"cf", "rpc", some "p2p"⟩
        ⟨["-v"], false, true, "dev", none, none, 3⟩ "/d" 0
        = (.ok (args, eUrl, esp), evs, p2) ∧
      esp.isSome = (⟨["-v"], false, true, "dev", none, none, 3⟩ : Conf).httpEnabled :=
  ⟨_, _, _, _, _, rfl,
    (c8_cli_surface.1
      ⟨fun _ => ⟨.ok ⟨some false⟩, .ok "a", .ok (), .ok "/t", true, true,
        fun _ => .ok none, fun _ => true⟩, fun i => some (7000 + i), none, .ok "ck"⟩
      ⟨false, false, false⟩ ⟨"cf", "rpc", some "p2p"⟩
      ⟨["-v"], false, true, "dev", none, none, 3⟩ "/d" 0 _ _ _ _ _ rfl).2.2.2⟩

/-- C6 witness: a fetched transaction with zero outputs is declared fully
indexed, and the success is justified by the amended characterization. -/
theorem c6_wait_tx_amended_witness :
    ∃ k, k < 600 ∧ ∃ tx,
      ((fun _ => ⟨some ⟨9, []⟩, fun _ => some []⟩ : Nat → TxIterEnv) k).txGet = some tx ∧
      (tx.outputs = [] ∨
        ∃ s rest h, tx.outputs = s :: rest ∧
          ((fun _ => ⟨some ⟨9, []⟩, fun _ => some []⟩ : Nat → TxIterEnv) k).hist s = some h ∧
          tx.txid ∈ h) :=
  (c6_wait_tx_amended (fun _ => ⟨some ⟨9, []⟩, fun _ => some []⟩)).1 rfl

/-! ### The retry scenario of C1 -/

/-- Environment of an attempt whose spawned child stays alive and accepts
the first connection attempt. -/
def liveEnv : AttemptEnv :=
  { chainInfo := .ok ⟨some false⟩, newAddr := .ok "a", gen := .ok ()
    tempDir := .ok "/tmp/x", createDirOk := true, spawnOk := true
    tryWait := fun _ => .ok none, connOk := fun _ => true }

/-- Environment of an attempt whose spawned child is observed exited with
status `st` at the first readiness iteration. -/
def exitingEnv (st : Nat) : AttemptEnv :=
  { liveEnv with tryWait := fun _ => .ok (some st) }

/-- The world of the retry scenario: starting from budget `A`, the
executable exits immediately on the first `N - 1` spawns and stays alive on
spawn `N`. Spawn number `k` runs at budget value `A - (k - 1)`, so the
budget-indexed environment is exiting exactly when `A + 2 ≤ a + N`. Ports
are allocated as consecutive counter values. -/
def scenarioW (A N st : Nat) : World :=
  { env := fun a => if A + 2 ≤ a + N then exitingEnv st else liveEnv
    ports := fun i => some i
    tempdirRootVar := none
    cookieContents := .ok "ck" }

/-- Feature selection of the scenario: no version feature (p2p mode). -/
def scenarioF : Features := ⟨false, false, false⟩

/-- Upstream parameters of the scenario. -/
def scenarioP : Params := ⟨"/c/.cookie", "127.0.0.1:18443", some "127.0.0.1:18444"⟩

/-- Scenario configuration with retry budget `A` (default directories, no
HTTP endpoint). -/
def scenarioConf (A : Nat) : Conf :=
  { args := [], viewStderr := false, httpEnabled := false, network := "dev"
    tmpdir := none, staticdir := none, attempts := A }

/-- The command line built by the scenario when the port counter is at `p`. -/
def scenarioArgs (p : Nat) : List String :=
  ["--db-dir", "/tmp/x", "--network", "dev", "--cookie-file", "/c/.cookie",
   "--daemon-rpc-addr", "127.0.0.1:18443", "--daemon-p2p-addr", "127.0.0.1:18444",
   "--electrum-rpc-addr", "0.0.0.0:" ++ toString p,
   "--monitoring-addr", "0.0.0.0:" ++ toString (p + 1)]

/-- Evaluation of one attempt in the live region of the scenario: the
launch nudges nothing, resolves a fresh temporary directory, allocates two
fresh ports, spawns, and connects at once. -/
theorem scenario_attempt_live (A N st a p : Nat) (h : ¬ A + 2 ≤ a + N) :
    attemptOnce (scenarioW A N st) scenarioF scenarioP 1 a (scenarioConf A) p
      = (.done (.ok ⟨.temporary "/tmp/x", "0.0.0.0:" ++ toString p, none⟩),
         [.queryChainInfo, .resolveDir, .allocPort p, .allocPort (p + 1),
          .spawn (scenarioArgs p), .connectAttempt true], p + 2) := by
  have henv : (scenarioW A N st).env a = liveEnv := by simp [scenarioW, h]
  unfold attemptOnce
  rw [henv]
  rfl

/-- Evaluation of one attempt in the exiting region of the scenario: the
launch resolves a fresh temporary directory, allocates two fresh ports,
spawns, and observes the early exit at once. -/
theorem scenario_attempt_exit (A N st a p : Nat) (h : A + 2 ≤ a + N) :
    attemptOnce (scenarioW A N st) scenarioF scenarioP 1 a (scenarioConf A) p
      = (.earlyExit st,
         [.queryChainInfo, .resolveDir, .allocPort p, .allocPort (p + 1),
          .spawn (scenarioArgs p)], p + 2) := by
  have henv : (scenarioW A N st).env a = exitingEnv st := by simp [scenarioW, h]
  unfold attemptOnce
  rw [henv]
  rfl

/-- Two consecutive counter values followed by the port range starting two
later form one contiguous port range. -/
theorem range'_cons2 (p k : Nat) :
    p :: (p + 1) :: List.range' (p + 2) k = List.range' p (k + 2) := rfl

/-- Full evaluation of the retry scenario, by descent over the remaining
budget `a`: when the first attempt already falls in the live region the
launch succeeds with one spawn and two ports; when it falls in the exiting
region but the executable eventually stays alive within the budget
(`N ≤ A + 1`) the launch succeeds after `a + N - A` spawns, each attempt
consuming two fresh ports; when the executable never stays alive in time
(`A + 2 ≤ N`) the launch performs `a + 1` spawns and fails with
`EarlyExit`. -/
theorem scenario_run (A N st : Nat) :
    ∀ a p,
      (a + N ≤ A + 1 →
        (withConfA (scenarioW A N st) scenarioF scenarioP 1 a (scenarioConf A) p).1.isOk
            = true ∧
        spawnCount (withConfA (scenarioW A N st) scenarioF scenarioP 1 a
          (scenarioConf A) p).2.1 = 1 ∧
        portVals (withConfA (scenarioW A N st) scenarioF scenarioP 1 a
          (scenarioConf A) p).2.1 = List.range' p 2 ∧
        (withConfA (scenarioW A N st) scenarioF scenarioP 1 a (scenarioConf A) p).2.2
            = p + 2) ∧
      (A + 2 ≤ a + N → N ≤ A + 1 →
        (withConfA (scenarioW A N st) scenarioF scenarioP 1 a (scenarioConf A) p).1.isOk
            = true ∧
        spawnCount (withConfA (scenarioW A N st) scenarioF scenarioP 1 a
          (scenarioConf A) p).2.1 = a + N - A ∧
        portVals (withConfA (scenarioW A N st) scenarioF scenarioP 1 a
          (scenarioConf A) p).2.1 = List.range' p (2 * (a + N - A)) ∧
        (withConfA (scenarioW A N st) scenarioF scenarioP 1 a (scenarioConf A) p).2.2
            = p + 2 * (a + N - A)) ∧
      (A + 2 ≤ N →
        (withConfA (scenarioW A N st) scenarioF scenarioP 1 a (scenarioConf A) p).1
            = .err (.earlyExit st) ∧
        spawnCount (withConfA (scenarioW A N st) scenarioF scenarioP 1 a
          (scenarioConf A) p).2.1 = a + 1 ∧
        portVals (withConfA (scenarioW A N st) scenarioF scenarioP 1 a
          (scenarioConf A) p).2.1 = List.range' p (2 * (a + 1)) ∧
        (withConfA (scenarioW A N st) scenarioF scenarioP 1 a (scenarioConf A) p).2.2
            = p + 2 * (a + 1)) := by
  intro a
  induction a with
  | zero =>
    intro p
    refine ⟨?_, ?_, ?_⟩
    · intro h1
      have hA := scenario_attempt_live A N st 0 p (by omega)
      rw [withConfA_done _ _ _ _ _ _ _ _ _ _ hA]
      exact ⟨rfl, rfl, rfl, rfl⟩
    · intro h1 h2
      omega
    · intro h1
      have hA := scenario_attempt_exit A N st 0 p (by omega)
      rw [withConfA_exhausted _ _ _ _ _ _ _ _ _ hA]
      refine ⟨rfl, rfl, ?_, ?_⟩
      · show ([p, p + 1] : List Nat) = List.range' p (2 * (0 + 1))
        rfl
      · show p + 2 = p + 2 * (0 + 1)
        omega
  | succ b ih =>
    intro p
    refine ⟨?_, ?_, ?_⟩
    · intro h1
      have hA := scenario_attempt_live A N st (b + 1) p (by omega)
      rw [withConfA_done _ _ _ _ _ _ _ _ _ _ hA]
      exact ⟨rfl, rfl, rfl, rfl⟩
    · intro h1 h2
      have hA := scenario_attempt_exit A N st (b + 1) p h1
      rw [withConfA_retry _ _ _ _ _ _ _ _ _ _ hA]
      rcases Nat.lt_or_ge (b + N) (A + 2) with hb | hb
      · obtain ⟨r1, r2, r3, r4⟩ := (ih (p + 2)).1 (by omega)
        refine ⟨r1, ?_, ?_, ?_⟩
        · rw [spawnCount_append, r2]
          show 1 + 1 = b + 1 + N - A
          omega
        · rw [portVals_append, r3]
          show p :: (p + 1) :: List.range' (p + 2) 2 = List.range' p (2 * (b + 1 + N - A))
          rw [range'_cons2]
          congr 1 <;> omega
        · rw [r4]; omega
      · obtain ⟨r1, r2, r3, r4⟩ := (ih (p + 2)).2.1 hb h2
        refine ⟨r1, ?_, ?_, ?_⟩
        · rw [spawnCount_append, r2]
          show 1 + (b + N - A) = b + 1 + N - A
          omega
        · rw [portVals_append, r3]
          show p :: (p + 1) :: List.range' (p + 2) (2 * (b + N - A))
              = List.range' p (2 * (b + 1 + N - A))
          rw [range'_cons2]
          congr 1 <;> omega
        · rw [r4]; omega
    · intro h1
      have hA := scenario_attempt_exit A N st (b + 1) p (by omega)
      rw [withConfA_retry _ _ _ _ _ _ _ _ _ _ hA]
      obtain ⟨r1, r2, r3, r4⟩ := (ih (p + 2)).2.2 h1
      refine ⟨r1, ?_, ?_, ?_⟩
      · rw [spawnCount_append, r2]
        show 1 + (b + 1) = b + 1 + 1
        omega
      · rw [portVals_append, r3]
        show p :: (p + 1) :: List.range' (p + 2) (2 * (b + 1))
            = List.range' p (2 * (b + 1 + 1))
        rw [range'_cons2]
        congr 1 <;> omega
      · rw [r4]; omega

/-- C1 counterexample: with retry budget 1, an executable that exits
immediately on spawn 1 and stays alive on spawn 2 (so N = 2 > attempts = 1)
makes the launch SUCCEED — the code retries while the budget is positive
and only fails once an exit is observed with the budget already at zero, so
it tolerates `attempts` early exits (spawns through `attempts + 1`), not
`attempts - 1` as the claim's "fails with EarlyExit otherwise" requires. -/
theorem c1_claim_counterexample :
    1 < 2 ∧
    (withConf (scenarioW 1 2 7) scenarioF scenarioP 1 (scenarioConf 1) 0).1.isOk = true ∧
    (withConf (scenarioW 1 2 7) scenarioF scenarioP 1 (scenarioConf 1) 0).1
        ≠ .err (.earlyExit 7) := by
  refine ⟨by decide, by decide, by decide⟩

/-- C1 amended: in the scenario where the executable exits immediately on
the first `N - 1` spawns and stays alive on spawn `N`, the launch succeeds
exactly when `N ≤ attempts + 1`, performing `N` full attempts (each with a
fresh spawn and two freshly allocated, pairwise distinct ports); when
`N > attempts + 1` it performs `attempts + 1` spawns and fails with
`EarlyExit` carrying the observed status. -/
theorem c1_retry_amended (A N st : Nat) (hN : 1 ≤ N) :
    (N ≤ A + 1 →
      (withConf (scenarioW A N st) scenarioF scenarioP 1 (scenarioConf A) 0).1.isOk
          = true ∧
      spawnCount (withConf (scenarioW A N st) scenarioF scenarioP 1
        (scenarioConf A) 0).2.1 = N ∧
      portVals (withConf (scenarioW A N st) scenarioF scenarioP 1
        (scenarioConf A) 0).2.1 = List.range' 0 (2 * N) ∧
      (portVals (withConf (scenarioW A N st) scenarioF scenarioP 1
        (scenarioConf A) 0).2.1).Nodup) ∧
    (A + 1 < N →
      (withConf (scenarioW A N st) scenarioF scenarioP 1 (scenarioConf A) 0).1
          = .err (.earlyExit st) ∧
      spawnCount (withConf (scenarioW A N st) scenarioF scenarioP 1
        (scenarioConf A) 0).2.1 = A + 1 ∧
      portVals (withConf (scenarioW A N st) scenarioF scenarioP 1
        (scenarioConf A) 0).2.1 = List.range' 0 (2 * (A + 1)) ∧
      (portVals (withConf (scenarioW A N st) scenarioF scenarioP 1
        (scenarioConf A) 0).2.1).Nodup) := by
  have hconf : (scenarioConf A).attempts = A := rfl
  constructor
  · intro hle
    rcases Nat.lt_or_ge (A + N) (A + 2) with hb | hb
    · obtain ⟨r1, r2, r3, r4⟩ := (scenario_run A N st A 0).1 (by omega)
      rw [withConf, hconf]
      have hN1 : N = 1 := by omega
      refine ⟨r1, by rw [r2]; omega, ?_, ?_⟩
      · rw [r3]; congr 1; omega
      · rw [r3]; exact List.nodup_range' _ _
    · obtain ⟨r1, r2, r3, r4⟩ := (scenario_run A N st A 0).2.1 hb hle
      rw [withConf, hconf]
      refine ⟨r1, by rw [r2]; omega, ?_, ?_⟩
      · rw [r3]; congr 1; omega
      · rw [r3]; exact List.nodup_range' _ _
  · intro hgt
    obtain ⟨r1, r2, r3, r4⟩ := (scenario_run A N st A 0).2.2 (by omega)
    rw [withConf, hconf]
    refine ⟨r1, r2, r3, by rw [r3]; exact List.nodup_range' _ _⟩

/-- C1 witness: with budget 2 and an executable alive from spawn 2 on, the
launch succeeds after exactly 2 spawns with 4 pairwise distinct ports. -/
theorem c1_retry_amended_witness :
    (withConf (scenarioW 2 2 7) scenarioF scenarioP 1 (scenarioConf 2) 0).1.isOk = true ∧
    spawnCount (withConf (scenarioW 2 2 7) scenarioF scenarioP 1
      (scenarioConf 2) 0).2.1 = 2 ∧
    portVals (withConf (scenarioW 2 2 7) scenarioF scenarioP 1
      (scenarioConf 2) 0).2.1 = List.range' 0 (2 * 2) ∧
    (portVals (withConf (scenarioW 2 2 7) scenarioF scenarioP 1
      (scenarioConf 2) 0).2.1).Nodup :=
  (c1_retry_amended 2 2 7 (by decide)).1 (by decide)

end Electrsd
